import Mathlib

/-!
Shallow embedding of `src/metrics.ts` (the push-lifecycle manager of
`tweet-lib`): the `MetricsClient` class, its private constructor, `resume`,
`pause`, `_pushStats`, `dispose`, and the static `create` / `start` entry
points.

Modelling choices, all taken from the source:
* The mutable instance fields of the class become the structure
  `MetricsClient`; `_interval` is an `Option Nat` timer handle
  (`null` in the source is `none`).
* The JavaScript runtime's timer table and the outward-visible calls
  (gateway `pushAdd` / `delete`, logger lines, `process.once` registration,
  `defaultMetrics`) become an explicit runtime state `RTState` holding the
  set of armed interval timers and an append-only `trace` of `Effect`s.
  `setInterval` arms a fresh timer and returns its handle; `clearInterval h`
  disarms the timer with handle `h` (a no-op when `h` is `none`, as in JS).
* Asynchronous completions are separate functions: `pushAddCallback` is the
  callback passed to `pushgateway.pushAdd`, modelling a transmission outcome
  as `Option String` (`some msg` = transport error with message `msg`); it
  returns `Except String (...)` so that "the callback throws" would be
  representable — the source body never throws, and that is proved, not
  assumed.  `disposeCallback` is the callback passed to `pushgateway.delete`
  inside the `Promise` executor of `dispose`; its second component is the
  promise's settlement (`Except.error e` = `reject(e)` with the underlying
  transport error, `Except.ok ()` = `resolve()`).
* The passage of one configured interval is `elapse`: every armed timer
  fires its tick (`_pushStats`) once.
* `os.hostname()` / `os.userInfo().username` are ambient inputs and are
  passed to `start` as parameters.
-/

/-- Parsed URL as produced by node's `url.parse`.  The client only uses
`href` (to construct the `Pushgateway`) and `host`/`port` (in a logger name),
so only those fields are modelled. -/
structure Url where
  host : String
  port : String
  href : String
  deriving DecidableEq

/-- `type Labels = { [key: string]: string }` — a string-to-string mapping,
modelled as an association list. -/
abbrev Labels := List (String × String)

/-- `Pushgateway.Parameters` from `prom-client`: the identity under which a
series is pushed and deleted. -/
structure Pushgateway.Parameters where
  jobName : String
  groupings : Labels
  deriving DecidableEq

/-- The outward-visible actions of the client: logger lines, gateway
requests, hook registration and default-metric registration.  `pushAdd` and
`delete` record the *issuing* of the request; completions are modelled by
the callback functions below. -/
inductive Effect where
  | logInfo (msg : String) (params : Option Pushgateway.Parameters)
  | logError (msg : String) (params : Option Pushgateway.Parameters)
  | pushAdd (params : Pushgateway.Parameters)
  | delete (params : Pushgateway.Parameters)
  | processOnce (event : String)
  | defaultMetricsCall (blacklist : Option (List String)) (interval : Option Nat)
  deriving DecidableEq

/-- Runtime state outside the client object: the armed interval timers
`(handle, intervalMs)`, a fresh-handle counter, and the trace of effects. -/
structure RTState where
  armedTimers : List (Nat × Nat)
  nextHandle : Nat
  trace : List Effect
  deriving DecidableEq

/-- `setInterval(cb, ms)`: arms a fresh recurring timer and returns its
handle. -/
def setInterval (intervalMs : Nat) (rt : RTState) : Nat × RTState :=
  (rt.nextHandle,
   { rt with
      armedTimers := rt.armedTimers ++ [(rt.nextHandle, intervalMs)]
      nextHandle := rt.nextHandle + 1 })

/-- `clearInterval(handle)`: disarms the timer with that handle; a no-op on
`null`. -/
def clearInterval (handle : Option Nat) (rt : RTState) : RTState :=
  { rt with armedTimers := rt.armedTimers.filter (fun t => handle != some t.fst) }

/-- The instance fields of `class MetricsClient`.  `_pushgateway` is the
`Pushgateway` collaborator, identified by the base URL it was constructed
with (`new Pushgateway(_url.href)`). -/
structure MetricsClient where
  _url : Url
  _pushInterval : Nat
  _params : Pushgateway.Parameters
  _interval : Option Nat
  _pushgateway : String
  deriving DecidableEq

/-- `get running () { return !!this._interval; }` -/
def MetricsClient.running (c : MetricsClient) : Bool :=
  c._interval.isSome

/-- `resume()`: `this._interval = setInterval(() => this._pushStats(), this._pushInterval)`. -/
def MetricsClient.resume (c : MetricsClient) (rt : RTState) : MetricsClient × RTState :=
  let p := setInterval c._pushInterval rt
  ({ c with _interval := some p.fst }, p.snd)

/-- `pause()`: `clearInterval(this._interval); this._interval = null;`. -/
def MetricsClient.pause (c : MetricsClient) (rt : RTState) : MetricsClient × RTState :=
  ({ c with _interval := none }, clearInterval c._interval rt)

/-- `_pushStats()`: logs, then issues `pushgateway.pushAdd(this._params, cb)`.
Fire-and-forget: only the issuing of the request happens here; the callback
is `MetricsClient.pushAddCallback`. -/
def MetricsClient._pushStats (c : MetricsClient) (rt : RTState) : RTState :=
  { rt with
      trace := rt.trace ++
        [Effect.logInfo "Pushing stats to Pushgateway" (some c._params),
         Effect.pushAdd c._params] }

/-- The callback passed to `pushgateway.pushAdd`, run when the transmission
outcome (`error`) arrives.  `Except.error` would model an exception escaping
the callback; the source body only logs and returns in both branches. -/
def MetricsClient.pushAddCallback (c : MetricsClient) (rt : RTState)
    (error : Option String) : Except String (MetricsClient × RTState) :=
  match error with
  | some msg =>
      Except.ok (c, { rt with
        trace := rt.trace ++
          [Effect.logError
            ("An error occured while pushing stats to Pushgateway: " ++ msg)
            (some c._params)] })
  | none =>
      Except.ok (c, { rt with
        trace := rt.trace ++
          [Effect.logInfo "Successfully pushed stats to Pushgateway" none] })

/-- `dispose()` up to the synchronous end of the `Promise` executor:
`this.pause()`, the log line, and the issuing of
`pushgateway.delete(this._params, cb)`.  The settlement of the returned
promise is `MetricsClient.disposeCallback`. -/
def MetricsClient.dispose (c : MetricsClient) (rt : RTState) : MetricsClient × RTState :=
  let p := MetricsClient.pause c rt
  let rt2 := { p.snd with
    trace := p.snd.trace ++ [Effect.logInfo "Disposing Pushgateway stats" none] }
  (p.fst, { rt2 with trace := rt2.trace ++ [Effect.delete p.fst._params] })

/-- The callback passed to `pushgateway.delete` inside `dispose`'s promise
executor: returns the log effects it emits and the promise settlement
(`reject(error)` on failure, `resolve()` on success). -/
def MetricsClient.disposeCallback (params : Pushgateway.Parameters)
    (error : Option String) : List Effect × Except String Unit :=
  match error with
  | some msg =>
      ([Effect.logError
          ("An error occured while disposing Pushgateway stats: " ++ msg)
          (some params)],
       Except.error msg)
  | none =>
      ([Effect.logInfo "Successfully disposed Pushgateway stats" (some params)],
       Except.ok ())

/-- The closure registered via `process.once("uncaughtException", ...)`:
`this.pause(); this.dispose();` (the promise returned by `dispose` is
discarded). -/
def MetricsClient.uncaughtHook (c : MetricsClient) (rt : RTState) : MetricsClient × RTState :=
  let p := MetricsClient.pause c rt
  MetricsClient.dispose p.fst p.snd

/-- The private constructor: stores `_params`, creates the logger and the
`Pushgateway`, registers the one-shot `uncaughtException` hook, performs one
immediate `_pushStats()`, then `resume()`.  Total: nothing in the body
throws synchronously. -/
def MetricsClient.construct (url : Url) (pushInterval : Nat) (jobName : String)
    (groupings : Labels) (rt : RTState) : MetricsClient × RTState :=
  let params : Pushgateway.Parameters := { jobName := jobName, groupings := groupings }
  let c : MetricsClient :=
    { _url := url, _pushInterval := pushInterval, _params := params,
      _interval := none, _pushgateway := url.href }
  let rt1 := { rt with trace := rt.trace ++ [Effect.processOnce "uncaughtException"] }
  let rt2 := MetricsClient._pushStats c rt1
  MetricsClient.resume c rt2

/-- `MetricsOptions` from the source. -/
structure MetricsOptions where
  metricsPushgatewayUrl : String
  metricsPushgatewayPushInterval : Nat
  metricsDefaultBlacklist : Option (List String)
  metricsInterval : Option Nat
  metricsJobName : String
  deriving DecidableEq

/-- Model of node's `url.parse` as used here.  URL parsing is an external
collaborator (node stdlib); the client never inspects the parsed components
except to pass `href` to the `Pushgateway` constructor and `host`/`port` to
a logger name, so the embedding lets the parsed value carry the raw
string. -/
def parseUrl (s : String) : Url :=
  { host := s, port := "", href := s }

/-- `MetricsClient.create(options, labels)`: registers default metrics on
the external registry, logs, parses the gateway URL, and invokes the
constructor. -/
def MetricsClient.create (options : MetricsOptions) (labels : Labels)
    (rt : RTState) : MetricsClient × RTState :=
  let rt1 := { rt with
    trace := rt.trace ++
      [Effect.defaultMetricsCall options.metricsDefaultBlacklist options.metricsInterval,
       Effect.logInfo "Registered default metrics" none] }
  let pushgatewayUrl := parseUrl options.metricsPushgatewayUrl
  MetricsClient.construct pushgatewayUrl options.metricsPushgatewayPushInterval
    options.metricsJobName labels rt1

/-- The process-wide singleton slot `MetricsClient._default` together with
the runtime state. -/
structure MetricsWorld where
  rt : RTState
  _default : Option MetricsClient

/-- The default labels `start` builds:
`{ hostname: os.hostname(), username: os.userInfo().username.toString() }`. -/
def getDefaultLabels (hostname username : String) : Labels :=
  [("hostname", hostname), ("username", username)]

/-- `MetricsClient.start(options)`: if `_default` is set, `dispose()` it
(fire-and-forget — the returned promise is discarded, its callback never
consulted here), then unconditionally overwrite `_default` with a freshly
created client whose labels are the default hostname/username identity.
`hostname`/`username` are the ambient `os` values. -/
def MetricsClient.start (options : MetricsOptions) (hostname username : String)
    (w : MetricsWorld) : MetricsWorld :=
  let w1 : MetricsWorld :=
    match w._default with
    | some c => { w with rt := (MetricsClient.dispose c w.rt).snd }
    | none => w
  let p := MetricsClient.create options (getDefaultLabels hostname username) w1.rt
  { rt := p.snd, _default := some p.fst }

/-! ## Observation helpers and the session-operation semantics -/

/-- Is this effect the issuing of a `pushAdd` request? -/
def isPushAdd : Effect → Bool
  | Effect.pushAdd _ => true
  | _ => false

/-- Is this effect the issuing of a `delete` request? -/
def isDelete : Effect → Bool
  | Effect.delete _ => true
  | _ => false

/-- Number of `pushAdd` requests issued in a trace. -/
def countPushAdds (tr : List Effect) : Nat :=
  (tr.filter isPushAdd).length

/-- Number of `delete` requests issued in a trace. -/
def countDeletes (tr : List Effect) : Nat :=
  (tr.filter isDelete).length

/-- The identity a gateway request targets (`none` for non-request
effects). -/
def effectIdentity : Effect → Option Pushgateway.Parameters
  | Effect.pushAdd p => some p
  | Effect.delete p => some p
  | _ => none

/-- Every gateway request among the given effects targets identity `p`. -/
def identOk (p : Pushgateway.Parameters) (e : Effect) : Prop :=
  effectIdentity e = none ∨ effectIdentity e = some p

/-- Fire the tick (`_pushStats`) of each timer in the list once. -/
def fireAll (c : MetricsClient) (l : List (Nat × Nat)) (rt : RTState) : RTState :=
  l.foldl (fun acc _ => MetricsClient._pushStats c acc) rt

/-- One configured interval elapses: every armed timer fires its tick
once. -/
def elapse (c : MetricsClient) (rt : RTState) : RTState :=
  fireAll c rt.armedTimers rt

/-- The operations that can act on a session after construction: the public
methods, the passage of one interval, and the asynchronous completions. -/
inductive SessionOp where
  | pauseOp
  | resumeOp
  | elapseOp
  | pushOutcome (error : Option String)
  | disposeOp
  | disposeOutcome (error : Option String)
  | hookFire
  deriving DecidableEq

/-- Apply one session operation to the client/runtime pair. -/
def applyOp (op : SessionOp) (s : MetricsClient × RTState) : MetricsClient × RTState :=
  match op with
  | SessionOp.pauseOp => MetricsClient.pause s.fst s.snd
  | SessionOp.resumeOp => MetricsClient.resume s.fst s.snd
  | SessionOp.elapseOp => (s.fst, elapse s.fst s.snd)
  | SessionOp.pushOutcome err =>
      (MetricsClient.pushAddCallback s.fst s.snd err).toOption.getD s
  | SessionOp.disposeOp => MetricsClient.dispose s.fst s.snd
  | SessionOp.disposeOutcome err =>
      (s.fst, { s.snd with
        trace := s.snd.trace ++ (MetricsClient.disposeCallback s.fst._params err).fst })
  | SessionOp.hookFire => MetricsClient.uncaughtHook s.fst s.snd

/-- Apply a sequence of session operations in order. -/
def applyOps (ops : List SessionOp) (s : MetricsClient × RTState) : MetricsClient × RTState :=
  ops.foldl (fun s op => applyOp op s) s

/-- The timers that the client's stored handle accounts for. -/
def clientTimers (c : MetricsClient) : List (Nat × Nat) :=
  match c._interval with
  | some h => [(h, c._pushInterval)]
  | none => []

/-- A client/runtime pair is well-armed when the armed timers are exactly
those the stored handle accounts for (the state after construction, and
after any sequence of paired `pause`/`resume` calls — i.e. no leaked timer
from a double `resume`). -/
def goodState (c : MetricsClient) (rt : RTState) : Prop :=
  rt.armedTimers = clientTimers c

/-! Concrete states used by the witnesses: the scenario of the spec
(interval 1000ms, job "svc", groupings `{instance: "a"}`). -/

/-- A concrete gateway URL. -/
def urlEx : Url :=
  { host := "gw", port := "9091", href := "http://gw:9091" }

/-- The empty runtime state. -/
def rtEmpty : RTState :=
  { armedTimers := [], nextHandle := 0, trace := [] }

/-- A freshly constructed session on the concrete configuration. -/
def sEx : MetricsClient × RTState :=
  MetricsClient.construct urlEx 1000 "svc" [("instance", "a")] rtEmpty

/-- A concrete configuration object for the singleton entry point. -/
def optionsEx : MetricsOptions :=
  { metricsPushgatewayUrl := "http://gw:9091"
    metricsPushgatewayPushInterval := 1000
    metricsDefaultBlacklist := none
    metricsInterval := none
    metricsJobName := "svc" }

/-- A concrete world whose singleton slot already holds the session
`sEx`. -/
def wEx : MetricsWorld :=
  { rt := sEx.snd, _default := some sEx.fst }

/-! ## Helper lemmas -/

theorem countPushAdds_append (a b : List Effect) :
    countPushAdds (a ++ b) = countPushAdds a + countPushAdds b := by
  simp [countPushAdds, List.filter_append]

theorem countDeletes_append (a b : List Effect) :
    countDeletes (a ++ b) = countDeletes a + countDeletes b := by
  simp [countDeletes, List.filter_append]

theorem fireAll_armed (c : MetricsClient) (l : List (Nat × Nat)) (rt : RTState) :
    (fireAll c l rt).armedTimers = rt.armedTimers := by
  induction l generalizing rt with
  | nil => rfl
  | cons t l ih => simpa [fireAll, MetricsClient._pushStats] using ih _

theorem fireAll_count (c : MetricsClient) (l : List (Nat × Nat)) (rt : RTState) :
    countPushAdds (fireAll c l rt).trace = countPushAdds rt.trace + l.length := by
  induction l generalizing rt with
  | nil => rfl
  | cons t l ih =>
    have h := ih (MetricsClient._pushStats c rt)
    simp only [fireAll, List.foldl] at h ⊢
    rw [h]
    simp [MetricsClient._pushStats, countPushAdds_append, countPushAdds, isPushAdd]
    omega

theorem fireAll_trace (c : MetricsClient) (l : List (Nat × Nat)) (rt : RTState) :
    ∃ tl, (fireAll c l rt).trace = rt.trace ++ tl ∧ ∀ e ∈ tl, identOk c._params e := by
  induction l generalizing rt with
  | nil => exact ⟨[], by simp [fireAll]⟩
  | cons t l ih =>
    obtain ⟨tl, htl, hok⟩ := ih (MetricsClient._pushStats c rt)
    refine ⟨[Effect.logInfo "Pushing stats to Pushgateway" (some c._params),
             Effect.pushAdd c._params] ++ tl, ?_, ?_⟩
    · simpa [fireAll, MetricsClient._pushStats, List.append_assoc] using htl
    · intro e he
      rcases List.mem_append.mp he with h | h
      · simp only [List.mem_cons, List.not_mem_nil, or_false] at h
        rcases h with rfl | rfl
        · exact Or.inl rfl
        · exact Or.inr rfl
      · exact hok e h

theorem pushAddCallback_ok (c : MetricsClient) (rt : RTState) (err : Option String) :
    ∃ s2, MetricsClient.pushAddCallback c rt err = Except.ok s2 ∧
      s2.fst = c ∧ s2.snd.armedTimers = rt.armedTimers ∧
      s2.snd.nextHandle = rt.nextHandle ∧
      countPushAdds s2.snd.trace = countPushAdds rt.trace := by
  cases err with
  | some msg =>
    refine ⟨_, rfl, rfl, rfl, rfl, ?_⟩
    simp [MetricsClient.pushAddCallback, countPushAdds_append, countPushAdds, isPushAdd]
  | none =>
    refine ⟨_, rfl, rfl, rfl, rfl, ?_⟩
    simp [MetricsClient.pushAddCallback, countPushAdds_append, countPushAdds, isPushAdd]

theorem pause_goodState (c : MetricsClient) (rt : RTState) (h : goodState c rt) :
    (MetricsClient.pause c rt).fst._interval = none ∧
    (MetricsClient.pause c rt).snd.armedTimers = [] := by
  refine ⟨rfl, ?_⟩
  simp only [MetricsClient.pause, clearInterval]
  rw [h]
  cases hI : c._interval with
  | none => simp [clientTimers, hI]
  | some hdl => simp [clientTimers, hI]

theorem dispose_armed (c : MetricsClient) (rt : RTState) (h : goodState c rt) :
    (MetricsClient.dispose c rt).fst._interval = none ∧
    (MetricsClient.dispose c rt).snd.armedTimers = [] := by
  obtain ⟨h1, h2⟩ := pause_goodState c rt h
  exact ⟨h1, h2⟩

theorem dispose_trace (c : MetricsClient) (rt : RTState) :
    (MetricsClient.dispose c rt).snd.trace =
      rt.trace ++ [Effect.logInfo "Disposing Pushgateway stats" none,
                   Effect.delete c._params] := by
  simp [MetricsClient.dispose, MetricsClient.pause, clearInterval]

theorem applyOp_frame (op : SessionOp) (s : MetricsClient × RTState) :
    (applyOp op s).fst._url = s.fst._url ∧
    (applyOp op s).fst._pushInterval = s.fst._pushInterval ∧
    (applyOp op s).fst._params = s.fst._params ∧
    (applyOp op s).fst._pushgateway = s.fst._pushgateway := by
  cases op with
  | pauseOp => exact ⟨rfl, rfl, rfl, rfl⟩
  | resumeOp => exact ⟨rfl, rfl, rfl, rfl⟩
  | elapseOp => exact ⟨rfl, rfl, rfl, rfl⟩
  | pushOutcome err => cases err <;> exact ⟨rfl, rfl, rfl, rfl⟩
  | disposeOp => exact ⟨rfl, rfl, rfl, rfl⟩
  | disposeOutcome err => exact ⟨rfl, rfl, rfl, rfl⟩
  | hookFire => exact ⟨rfl, rfl, rfl, rfl⟩

theorem applyOps_frame (ops : List SessionOp) (s : MetricsClient × RTState) :
    (applyOps ops s).fst._url = s.fst._url ∧
    (applyOps ops s).fst._pushInterval = s.fst._pushInterval ∧
    (applyOps ops s).fst._params = s.fst._params ∧
    (applyOps ops s).fst._pushgateway = s.fst._pushgateway := by
  induction ops generalizing s with
  | nil => exact ⟨rfl, rfl, rfl, rfl⟩
  | cons op ops ih =>
    obtain ⟨h1, h2, h3, h4⟩ := applyOp_frame op s
    obtain ⟨g1, g2, g3, g4⟩ := ih (applyOp op s)
    refine ⟨?_, ?_, ?_, ?_⟩ <;> simp only [applyOps, List.foldl] at *
    · exact g1.trans h1
    · exact g2.trans h2
    · exact g3.trans h3
    · exact g4.trans h4

theorem applyOp_trace (op : SessionOp) (s : MetricsClient × RTState) :
    ∃ tl, (applyOp op s).snd.trace = s.snd.trace ++ tl ∧
      ∀ e ∈ tl, identOk s.fst._params e := by
  cases op with
  | pauseOp => exact ⟨[], by simp [applyOp, MetricsClient.pause, clearInterval], by simp⟩
  | resumeOp => exact ⟨[], by simp [applyOp, MetricsClient.resume, setInterval], by simp⟩
  | elapseOp =>
    obtain ⟨tl, htl, hok⟩ := fireAll_trace s.fst s.snd.armedTimers s.snd
    exact ⟨tl, htl, hok⟩
  | pushOutcome err =>
    cases err with
    | some msg =>
      refine ⟨[Effect.logError
        ("An error occured while pushing stats to Pushgateway: " ++ msg)
        (some s.fst._params)], ?_, ?_⟩
      · simp [applyOp, MetricsClient.pushAddCallback, Except.toOption]
      · intro e he
        simp only [List.mem_cons, List.not_mem_nil, or_false] at he
        subst he
        exact Or.inl rfl
    | none =>
      refine ⟨[Effect.logInfo "Successfully pushed stats to Pushgateway" none], ?_, ?_⟩
      · simp [applyOp, MetricsClient.pushAddCallback, Except.toOption]
      · intro e he
        simp only [List.mem_cons, List.not_mem_nil, or_false] at he
        subst he
        exact Or.inl rfl
  | disposeOp =>
    refine ⟨[Effect.logInfo "Disposing Pushgateway stats" none,
             Effect.delete s.fst._params], ?_, ?_⟩
    · exact dispose_trace s.fst s.snd
    · intro e he
      simp only [List.mem_cons, List.not_mem_nil, or_false] at he
      rcases he with rfl | rfl
      · exact Or.inl rfl
      · exact Or.inr rfl
  | disposeOutcome err =>
    cases err with
    | some msg =>
      refine ⟨_, rfl, ?_⟩
      intro e he
      simp only [MetricsClient.disposeCallback, List.mem_cons, List.not_mem_nil,
        or_false] at he
      subst he
      exact Or.inl rfl
    | none =>
      refine ⟨_, rfl, ?_⟩
      intro e he
      simp only [MetricsClient.disposeCallback, List.mem_cons, List.not_mem_nil,
        or_false] at he
      subst he
      exact Or.inl rfl
  | hookFire =>
    refine ⟨[Effect.logInfo "Disposing Pushgateway stats" none,
             Effect.delete s.fst._params], ?_, ?_⟩
    · simp [applyOp, MetricsClient.uncaughtHook, MetricsClient.dispose,
        MetricsClient.pause, clearInterval]
    · intro e he
      simp only [List.mem_cons, List.not_mem_nil, or_false] at he
      rcases he with rfl | rfl
      · exact Or.inl rfl
      · exact Or.inr rfl

theorem applyOps_trace (ops : List SessionOp) (s : MetricsClient × RTState) :
    ∃ tl, (applyOps ops s).snd.trace = s.snd.trace ++ tl ∧
      ∀ e ∈ tl, identOk s.fst._params e := by
  induction ops generalizing s with
  | nil => exact ⟨[], by simp [applyOps], by simp⟩
  | cons op ops ih =>
    obtain ⟨tl1, htl1, hok1⟩ := applyOp_trace op s
    obtain ⟨tl2, htl2, hok2⟩ := ih (applyOp op s)
    have hp : (applyOp op s).fst._params = s.fst._params := (applyOp_frame op s).2.2.1
    refine ⟨tl1 ++ tl2, ?_, ?_⟩
    · simp only [applyOps, List.foldl] at htl2 ⊢
      rw [htl2, htl1, List.append_assoc]
    · intro e he
      rcases List.mem_append.mp he with h | h
      · exact hok1 e h
      · have := hok2 e h
        rwa [hp] at this

theorem applyOp_no_arm (op : SessionOp) (s : MetricsClient × RTState)
    (hop : op ≠ SessionOp.resumeOp)
    (hint : s.fst._interval = none) (htim : s.snd.armedTimers = []) :
    (applyOp op s).fst._interval = none ∧
    (applyOp op s).snd.armedTimers = [] ∧
    countPushAdds (applyOp op s).snd.trace = countPushAdds s.snd.trace := by
  cases op with
  | pauseOp =>
    refine ⟨rfl, ?_, rfl⟩
    simp [applyOp, MetricsClient.pause, clearInterval, htim]
  | resumeOp => exact absurd rfl hop
  | elapseOp =>
    refine ⟨hint, ?_, ?_⟩
    · rw [show (applyOp SessionOp.elapseOp s).snd = elapse s.fst s.snd from rfl,
        elapse, fireAll_armed, htim]
    · rw [show (applyOp SessionOp.elapseOp s).snd = elapse s.fst s.snd from rfl,
        elapse, fireAll_count, htim]
      simp
  | pushOutcome err =>
    cases err with
    | some msg =>
      refine ⟨hint, htim, ?_⟩
      simp [applyOp, MetricsClient.pushAddCallback, Except.toOption,
        countPushAdds_append, countPushAdds, isPushAdd]
    | none =>
      refine ⟨hint, htim, ?_⟩
      simp [applyOp, MetricsClient.pushAddCallback, Except.toOption,
        countPushAdds_append, countPushAdds, isPushAdd]
  | disposeOp =>
    refine ⟨rfl, ?_, ?_⟩
    · simp [applyOp, MetricsClient.dispose, MetricsClient.pause, clearInterval, htim]
    · rw [show (applyOp SessionOp.disposeOp s).snd = (MetricsClient.dispose s.fst s.snd).snd
        from rfl, dispose_trace, countPushAdds_append]
      simp [countPushAdds, isPushAdd]
  | disposeOutcome err =>
    cases err with
    | some msg =>
      refine ⟨hint, htim, ?_⟩
      simp [applyOp, MetricsClient.disposeCallback, countPushAdds_append,
        countPushAdds, isPushAdd]
    | none =>
      refine ⟨hint, htim, ?_⟩
      simp [applyOp, MetricsClient.disposeCallback, countPushAdds_append,
        countPushAdds, isPushAdd]
  | hookFire =>
    refine ⟨rfl, ?_, ?_⟩
    · simp [applyOp, MetricsClient.uncaughtHook, MetricsClient.dispose,
        MetricsClient.pause, clearInterval, htim]
    · simp [applyOp, MetricsClient.uncaughtHook, MetricsClient.dispose,
        MetricsClient.pause, clearInterval, countPushAdds_append,
        countPushAdds, isPushAdd]

theorem applyOps_no_arm (ops : List SessionOp) (s : MetricsClient × RTState)
    (hops : SessionOp.resumeOp ∉ ops)
    (hint : s.fst._interval = none) (htim : s.snd.armedTimers = []) :
    (applyOps ops s).fst._interval = none ∧
    (applyOps ops s).snd.armedTimers = [] ∧
    countPushAdds (applyOps ops s).snd.trace = countPushAdds s.snd.trace := by
  induction ops generalizing s with
  | nil => exact ⟨hint, htim, rfl⟩
  | cons op ops ih =>
    have hop : op ≠ SessionOp.resumeOp := fun h => hops (h ▸ List.mem_cons_self op ops)
    have hrest : SessionOp.resumeOp ∉ ops := fun h => hops (List.mem_cons_of_mem op h)
    obtain ⟨h1, h2, h3⟩ := applyOp_no_arm op s hop hint htim
    obtain ⟨g1, g2, g3⟩ := ih (applyOp op s) hrest h1 h2
    exact ⟨g1, g2, g3.trans h3⟩

theorem create_trace (options : MetricsOptions) (labels : Labels) (rt : RTState) :
    (MetricsClient.create options labels rt).snd.trace =
      rt.trace ++
        [Effect.defaultMetricsCall options.metricsDefaultBlacklist options.metricsInterval,
         Effect.logInfo "Registered default metrics" none,
         Effect.processOnce "uncaughtException",
         Effect.logInfo "Pushing stats to Pushgateway"
           (some { jobName := options.metricsJobName, groupings := labels }),
         Effect.pushAdd { jobName := options.metricsJobName, groupings := labels }] := by
  simp [MetricsClient.create, MetricsClient.construct, MetricsClient._pushStats,
    MetricsClient.resume, setInterval]

/-! ## The claims -/

/-- Claim C1, counterexample.  The claim asserts that after `dispose()`, no
further pushes are issued when the interval elapses, absent further calls on
the session.  It fails on a session whose `resume()` was called a second
time while running (before `dispose()`): `dispose()`'s `pause()` clears only
the timer recorded in `_interval`, the leaked first timer stays armed, and
an elapsing interval after `dispose()` issues one more push with no further
call on the session. -/
theorem C1_counterexample :
    MetricsClient.running
      (applyOps [SessionOp.resumeOp, SessionOp.disposeOp] sEx).fst = false ∧
    countPushAdds
      (elapse (applyOps [SessionOp.resumeOp, SessionOp.disposeOp] sEx).fst
        (applyOps [SessionOp.resumeOp, SessionOp.disposeOp] sEx).snd).trace =
      countPushAdds (applyOps [SessionOp.resumeOp, SessionOp.disposeOp] sEx).snd.trace
        + 1 := by
  decide

/-- Claim C1 (amended): for every session whose armed timers are exactly the
one its stored handle records (no leaked timer from a double `resume`),
`dispose()` first pauses — cancelling the recurring timer — then issues
exactly one delete for this session's identity; the returned promise
resolves on success and rejects with the underlying transport error on
failure; and after `dispose()` no further pushes are issued when the
interval elapses, absent further calls on the session. -/
theorem C1_dispose_spec (c : MetricsClient) (rt : RTState) (h : goodState c rt) :
    (MetricsClient.dispose c rt).fst._interval = none ∧
    (MetricsClient.dispose c rt).snd.armedTimers = [] ∧
    (MetricsClient.dispose c rt).snd.trace =
      rt.trace ++ [Effect.logInfo "Disposing Pushgateway stats" none,
                   Effect.delete c._params] ∧
    countDeletes (MetricsClient.dispose c rt).snd.trace = countDeletes rt.trace + 1 ∧
    elapse (MetricsClient.dispose c rt).fst (MetricsClient.dispose c rt).snd =
      (MetricsClient.dispose c rt).snd ∧
    (∀ msg, (MetricsClient.disposeCallback c._params (some msg)).snd =
      Except.error msg) ∧
    (MetricsClient.disposeCallback c._params none).snd = Except.ok () := by
  obtain ⟨h1, h2⟩ := dispose_armed c rt h
  refine ⟨h1, h2, dispose_trace c rt, ?_, ?_, fun msg => rfl, rfl⟩
  · rw [dispose_trace, countDeletes_append]
    simp [countDeletes, isDelete]
  · unfold elapse
    rw [h2]
    rfl

/-- Witness for the amended claim C1 at the concrete session `sEx`. -/
theorem C1_dispose_spec_witness :
    goodState sEx.fst sEx.snd ∧
    ((MetricsClient.dispose sEx.fst sEx.snd).fst._interval = none ∧
     (MetricsClient.dispose sEx.fst sEx.snd).snd.armedTimers = [] ∧
     (MetricsClient.dispose sEx.fst sEx.snd).snd.trace =
       sEx.snd.trace ++ [Effect.logInfo "Disposing Pushgateway stats" none,
                         Effect.delete sEx.fst._params] ∧
     countDeletes (MetricsClient.dispose sEx.fst sEx.snd).snd.trace =
       countDeletes sEx.snd.trace + 1 ∧
     elapse (MetricsClient.dispose sEx.fst sEx.snd).fst
         (MetricsClient.dispose sEx.fst sEx.snd).snd =
       (MetricsClient.dispose sEx.fst sEx.snd).snd ∧
     (∀ msg, (MetricsClient.disposeCallback sEx.fst._params (some msg)).snd =
       Except.error msg) ∧
     (MetricsClient.disposeCallback sEx.fst._params none).snd = Except.ok ()) :=
  ⟨rfl, C1_dispose_spec sEx.fst sEx.snd rfl⟩

/-- Claim C2: the identity (jobName plus groupings) fixed at construction is
unchanged by every subsequent operation, and every gateway request issued by
the session — the initial push, every tick push, and every delete — targets
exactly that identity. -/
theorem C2_identity_roundtrip (url : Url) (intervalMs : Nat) (jobName : String)
    (groupings : Labels) (rt0 : RTState) (ops : List SessionOp) :
    (applyOps ops (MetricsClient.construct url intervalMs jobName groupings rt0)).fst._params
      = { jobName := jobName, groupings := groupings } ∧
    ∃ tl,
      (applyOps ops (MetricsClient.construct url intervalMs jobName groupings rt0)).snd.trace
        = rt0.trace ++ tl ∧
      ∀ e ∈ tl, identOk { jobName := jobName, groupings := groupings } e := by
  have hframe := applyOps_frame ops (MetricsClient.construct url intervalMs jobName groupings rt0)
  have hp : (MetricsClient.construct url intervalMs jobName groupings rt0).fst._params
      = { jobName := jobName, groupings := groupings } := rfl
  refine ⟨hframe.2.2.1.trans hp, ?_⟩
  obtain ⟨tl, htl, hok⟩ :=
    applyOps_trace ops (MetricsClient.construct url intervalMs jobName groupings rt0)
  have hct : (MetricsClient.construct url intervalMs jobName groupings rt0).snd.trace =
      rt0.trace ++
        [Effect.processOnce "uncaughtException",
         Effect.logInfo "Pushing stats to Pushgateway"
           (some { jobName := jobName, groupings := groupings }),
         Effect.pushAdd { jobName := jobName, groupings := groupings }] := by
    simp [MetricsClient.construct, MetricsClient._pushStats, MetricsClient.resume,
      setInterval]
  refine ⟨[Effect.processOnce "uncaughtException",
           Effect.logInfo "Pushing stats to Pushgateway"
             (some { jobName := jobName, groupings := groupings }),
           Effect.pushAdd { jobName := jobName, groupings := groupings }] ++ tl, ?_, ?_⟩
  · rw [htl, hct, List.append_assoc]
  · intro e he
    rcases List.mem_append.mp he with hm | hm
    · simp only [List.mem_cons, List.not_mem_nil, or_false] at hm
      rcases hm with rfl | rfl | rfl
      · exact Or.inl rfl
      · exact Or.inl rfl
      · exact Or.inr rfl
    · have := hok e hm
      rwa [hp] at this

theorem elapse_count (c : MetricsClient) (rt : RTState) :
    countPushAdds (elapse c rt).trace =
      countPushAdds rt.trace + rt.armedTimers.length := by
  unfold elapse
  exact fireAll_count c _ _

/-- Claim C3: for a running session with at least one armed timer, a failed
push transmission is handled entirely inside the `pushAdd` callback: the
callback returns normally (no exception escapes), it changes nothing but the
trace, the one effect it adds is the error log carrying the identity
context, the armed timers are untouched, and the next elapsing interval
issues at least one further push. -/
theorem C3_push_failure_selfheals (c : MetricsClient) (rt : RTState) (msg : String)
    (hrun : MetricsClient.running c = true) (harm : 0 < rt.armedTimers.length) :
    ∃ s2, MetricsClient.pushAddCallback c rt (some msg) = Except.ok s2 ∧
      s2.fst = c ∧
      s2.snd.armedTimers = rt.armedTimers ∧
      s2.snd.trace = rt.trace ++
        [Effect.logError
          ("An error occured while pushing stats to Pushgateway: " ++ msg)
          (some c._params)] ∧
      countPushAdds (elapse s2.fst s2.snd).trace ≥
        countPushAdds s2.snd.trace + 1 := by
  refine ⟨_, rfl, rfl, rfl, rfl, ?_⟩
  rw [elapse_count]
  exact Nat.add_le_add_left harm _

/-- Witness for claim C3 at the concrete running session `sEx` and a
concrete transport error. -/
theorem C3_push_failure_selfheals_witness :
    MetricsClient.running sEx.fst = true ∧ 0 < sEx.snd.armedTimers.length ∧
    (∃ s2, MetricsClient.pushAddCallback sEx.fst sEx.snd (some "boom") = Except.ok s2 ∧
      s2.fst = sEx.fst ∧
      s2.snd.armedTimers = sEx.snd.armedTimers ∧
      s2.snd.trace = sEx.snd.trace ++
        [Effect.logError
          ("An error occured while pushing stats to Pushgateway: " ++ "boom")
          (some sEx.fst._params)] ∧
      countPushAdds (elapse s2.fst s2.snd).trace ≥
        countPushAdds s2.snd.trace + 1) :=
  ⟨rfl, by decide, C3_push_failure_selfheals sEx.fst sEx.snd "boom" rfl (by decide)⟩

/-- Claim C4: constructing a session on a runtime with no armed timer
registers the one-shot process-level fatal-error hook, issues exactly one
push before returning (its network outcome is not consulted — the callback
only runs later and never fails), leaves the session running with its timer
armed, and the registered hook, when fired, pauses the session and issues
its delete. -/
theorem C4_construct_spec (url : Url) (intervalMs : Nat) (jobName : String)
    (groupings : Labels) (rt : RTState) (h : rt.armedTimers = []) :
    Effect.processOnce "uncaughtException" ∈
      (MetricsClient.construct url intervalMs jobName groupings rt).snd.trace ∧
    countPushAdds (MetricsClient.construct url intervalMs jobName groupings rt).snd.trace =
      countPushAdds rt.trace + 1 ∧
    MetricsClient.running (MetricsClient.construct url intervalMs jobName groupings rt).fst
      = true ∧
    goodState (MetricsClient.construct url intervalMs jobName groupings rt).fst
      (MetricsClient.construct url intervalMs jobName groupings rt).snd ∧
    (∀ err, ∃ s2, MetricsClient.pushAddCallback
        (MetricsClient.construct url intervalMs jobName groupings rt).fst
        (MetricsClient.construct url intervalMs jobName groupings rt).snd err
      = Except.ok s2) ∧
    (MetricsClient.uncaughtHook
        (MetricsClient.construct url intervalMs jobName groupings rt).fst
        (MetricsClient.construct url intervalMs jobName groupings rt).snd).fst._interval
      = none ∧
    countDeletes (MetricsClient.uncaughtHook
        (MetricsClient.construct url intervalMs jobName groupings rt).fst
        (MetricsClient.construct url intervalMs jobName groupings rt).snd).snd.trace =
      countDeletes (MetricsClient.construct url intervalMs jobName groupings rt).snd.trace
        + 1 := by
  have hct : (MetricsClient.construct url intervalMs jobName groupings rt).snd.trace =
      rt.trace ++
        [Effect.processOnce "uncaughtException",
         Effect.logInfo "Pushing stats to Pushgateway"
           (some { jobName := jobName, groupings := groupings }),
         Effect.pushAdd { jobName := jobName, groupings := groupings }] := by
    simp [MetricsClient.construct, MetricsClient._pushStats, MetricsClient.resume,
      setInterval]
  refine ⟨?_, ?_, rfl, ?_, ?_, rfl, ?_⟩
  · rw [hct]
    simp
  · rw [hct, countPushAdds_append]
    simp [countPushAdds, isPushAdd]
  · show (MetricsClient.construct url intervalMs jobName groupings rt).snd.armedTimers = _
    simp [MetricsClient.construct, MetricsClient._pushStats, MetricsClient.resume,
      setInterval, clientTimers, h]
  · intro err
    obtain ⟨s2, hs2, _⟩ := pushAddCallback_ok
      (MetricsClient.construct url intervalMs jobName groupings rt).fst
      (MetricsClient.construct url intervalMs jobName groupings rt).snd err
    exact ⟨s2, hs2⟩
  · have hh : (MetricsClient.uncaughtHook
        (MetricsClient.construct url intervalMs jobName groupings rt).fst
        (MetricsClient.construct url intervalMs jobName groupings rt).snd).snd.trace =
        (MetricsClient.construct url intervalMs jobName groupings rt).snd.trace ++
          [Effect.logInfo "Disposing Pushgateway stats" none,
           Effect.delete (MetricsClient.construct url intervalMs jobName groupings rt).fst._params] := by
      simp [MetricsClient.uncaughtHook, MetricsClient.dispose, MetricsClient.pause,
        clearInterval]
    rw [hh, countDeletes_append]
    simp [countDeletes, isDelete]

/-- Witness for claim C4 at the concrete configuration of `sEx`. -/
theorem C4_construct_spec_witness :
    rtEmpty.armedTimers = [] ∧
    (Effect.processOnce "uncaughtException" ∈
      (MetricsClient.construct urlEx 1000 "svc" [("instance", "a")] rtEmpty).snd.trace ∧
    countPushAdds (MetricsClient.construct urlEx 1000 "svc" [("instance", "a")] rtEmpty).snd.trace =
      countPushAdds rtEmpty.trace + 1 ∧
    MetricsClient.running (MetricsClient.construct urlEx 1000 "svc" [("instance", "a")] rtEmpty).fst
      = true ∧
    goodState (MetricsClient.construct urlEx 1000 "svc" [("instance", "a")] rtEmpty).fst
      (MetricsClient.construct urlEx 1000 "svc" [("instance", "a")] rtEmpty).snd ∧
    (∀ err, ∃ s2, MetricsClient.pushAddCallback
        (MetricsClient.construct urlEx 1000 "svc" [("instance", "a")] rtEmpty).fst
        (MetricsClient.construct urlEx 1000 "svc" [("instance", "a")] rtEmpty).snd err
      = Except.ok s2) ∧
    (MetricsClient.uncaughtHook
        (MetricsClient.construct urlEx 1000 "svc" [("instance", "a")] rtEmpty).fst
        (MetricsClient.construct urlEx 1000 "svc" [("instance", "a")] rtEmpty).snd).fst._interval
      = none ∧
    countDeletes (MetricsClient.uncaughtHook
        (MetricsClient.construct urlEx 1000 "svc" [("instance", "a")] rtEmpty).fst
        (MetricsClient.construct urlEx 1000 "svc" [("instance", "a")] rtEmpty).snd).snd.trace =
      countDeletes (MetricsClient.construct urlEx 1000 "svc" [("instance", "a")] rtEmpty).snd.trace
        + 1) :=
  ⟨rfl, C4_construct_spec urlEx 1000 "svc" [("instance", "a")] rtEmpty rfl⟩

/-- Claim C5: when the singleton slot already holds a session, `start` first
runs that session's `dispose()` — issuing its delete request, whose
completion is never awaited (no `disposeCallback` effects are interposed) —
and only then emits the new session's creation effects; afterwards the slot
holds exactly the freshly created session, which is running under the
default identity. -/
theorem C5_start_replaces (options : MetricsOptions) (hostname username : String)
    (w : MetricsWorld) (c : MetricsClient) (h : w._default = some c) :
    ∃ cnew tl,
      (MetricsClient.start options hostname username w)._default = some cnew ∧
      cnew._params = { jobName := options.metricsJobName,
                       groupings := getDefaultLabels hostname username } ∧
      MetricsClient.running cnew = true ∧
      (MetricsClient.start options hostname username w).rt.trace =
        w.rt.trace ++ [Effect.logInfo "Disposing Pushgateway stats" none,
                       Effect.delete c._params] ++ tl ∧
      Effect.pushAdd cnew._params ∈ tl := by
  have hd : (MetricsClient.start options hostname username w)._default =
      some (MetricsClient.create options (getDefaultLabels hostname username)
        (MetricsClient.dispose c w.rt).snd).fst := by
    simp [MetricsClient.start, h]
  have hp : (MetricsClient.create options (getDefaultLabels hostname username)
      (MetricsClient.dispose c w.rt).snd).fst._params =
      { jobName := options.metricsJobName,
        groupings := getDefaultLabels hostname username } := rfl
  have hr : MetricsClient.running
      (MetricsClient.create options (getDefaultLabels hostname username)
        (MetricsClient.dispose c w.rt).snd).fst = true := rfl
  have hs : (MetricsClient.start options hostname username w).rt =
      (MetricsClient.create options (getDefaultLabels hostname username)
        (MetricsClient.dispose c w.rt).snd).snd := by
    simp [MetricsClient.start, h]
  have ht : (MetricsClient.start options hostname username w).rt.trace =
      w.rt.trace ++ [Effect.logInfo "Disposing Pushgateway stats" none,
                     Effect.delete c._params] ++
        [Effect.defaultMetricsCall options.metricsDefaultBlacklist options.metricsInterval,
         Effect.logInfo "Registered default metrics" none,
         Effect.processOnce "uncaughtException",
         Effect.logInfo "Pushing stats to Pushgateway"
           (some { jobName := options.metricsJobName,
                   groupings := getDefaultLabels hostname username }),
         Effect.pushAdd { jobName := options.metricsJobName,
                          groupings := getDefaultLabels hostname username }] := by
    rw [hs, create_trace, dispose_trace, List.append_assoc]
  have hm : Effect.pushAdd
      (MetricsClient.create options (getDefaultLabels hostname username)
        (MetricsClient.dispose c w.rt).snd).fst._params ∈
      [Effect.defaultMetricsCall options.metricsDefaultBlacklist options.metricsInterval,
       Effect.logInfo "Registered default metrics" none,
       Effect.processOnce "uncaughtException",
       Effect.logInfo "Pushing stats to Pushgateway"
         (some { jobName := options.metricsJobName,
                 groupings := getDefaultLabels hostname username }),
       Effect.pushAdd { jobName := options.metricsJobName,
                        groupings := getDefaultLabels hostname username }] := by
    rw [hp]
    simp
  exact ⟨_, _, hd, hp, hr, ht, hm⟩

/-- Witness for claim C5 at the concrete world `wEx`, whose slot holds
`sEx`. -/
theorem C5_start_replaces_witness :
    wEx._default = some sEx.fst ∧
    (∃ cnew tl,
      (MetricsClient.start optionsEx "host1" "user1" wEx)._default = some cnew ∧
      cnew._params = { jobName := optionsEx.metricsJobName,
                       groupings := getDefaultLabels "host1" "user1" } ∧
      MetricsClient.running cnew = true ∧
      (MetricsClient.start optionsEx "host1" "user1" wEx).rt.trace =
        wEx.rt.trace ++ [Effect.logInfo "Disposing Pushgateway stats" none,
                         Effect.delete sEx.fst._params] ++ tl ∧
      Effect.pushAdd cnew._params ∈ tl) :=
  ⟨rfl, C5_start_replaces optionsEx "host1" "user1" wEx sEx.fst rfl⟩

/-- Claim C6, counterexample.  The claim asserts that the disposed state is
terminal and no subsequent call re-arms the recurring timer.  On the code,
calling `resume()` after `dispose()` re-arms the timer: the session is
running again and the next elapsing interval issues another push. -/
theorem C6_counterexample :
    MetricsClient.running
      (applyOps [SessionOp.disposeOp, SessionOp.resumeOp] sEx).fst = true ∧
    countPushAdds
      (elapse (applyOps [SessionOp.disposeOp, SessionOp.resumeOp] sEx).fst
        (applyOps [SessionOp.disposeOp, SessionOp.resumeOp] sEx).snd).trace =
      countPushAdds (applyOps [SessionOp.disposeOp, SessionOp.resumeOp] sEx).snd.trace
        + 1 := by
  decide

/-- Claim C6 (amended): after `dispose()` on a well-armed session, the
session stays out of the running state and no further push is ever issued,
for every subsequent operation sequence that does not call `resume()`; the
code has no disposed flag, so a subsequent `resume()` does re-arm the
recurring timer and periodic pushes restart. -/
theorem C6_disposed_terminal_without_resume (c : MetricsClient) (rt : RTState)
    (h : goodState c rt) (ops : List SessionOp)
    (hops : SessionOp.resumeOp ∉ ops) :
    MetricsClient.running (applyOps ops (MetricsClient.dispose c rt)).fst = false ∧
    (applyOps ops (MetricsClient.dispose c rt)).snd.armedTimers = [] ∧
    countPushAdds (applyOps ops (MetricsClient.dispose c rt)).snd.trace =
      countPushAdds (MetricsClient.dispose c rt).snd.trace := by
  obtain ⟨h1, h2⟩ := dispose_armed c rt h
  obtain ⟨g1, g2, g3⟩ := applyOps_no_arm ops (MetricsClient.dispose c rt) hops h1 h2
  exact ⟨by simp [MetricsClient.running, g1], g2, g3⟩

/-- Witness for the amended claim C6 at the concrete session `sEx` and a
concrete resume-free operation sequence. -/
theorem C6_disposed_terminal_without_resume_witness :
    goodState sEx.fst sEx.snd ∧
    SessionOp.resumeOp ∉
      [SessionOp.pauseOp, SessionOp.elapseOp, SessionOp.pushOutcome (some "boom"),
       SessionOp.hookFire] ∧
    (MetricsClient.running (applyOps
        [SessionOp.pauseOp, SessionOp.elapseOp, SessionOp.pushOutcome (some "boom"),
         SessionOp.hookFire]
        (MetricsClient.dispose sEx.fst sEx.snd)).fst = false ∧
     (applyOps
        [SessionOp.pauseOp, SessionOp.elapseOp, SessionOp.pushOutcome (some "boom"),
         SessionOp.hookFire]
        (MetricsClient.dispose sEx.fst sEx.snd)).snd.armedTimers = [] ∧
     countPushAdds (applyOps
        [SessionOp.pauseOp, SessionOp.elapseOp, SessionOp.pushOutcome (some "boom"),
         SessionOp.hookFire]
        (MetricsClient.dispose sEx.fst sEx.snd)).snd.trace =
      countPushAdds (MetricsClient.dispose sEx.fst sEx.snd).snd.trace) :=
  ⟨rfl, by decide,
   C6_disposed_terminal_without_resume sEx.fst sEx.snd rfl
     [SessionOp.pauseOp, SessionOp.elapseOp, SessionOp.pushOutcome (some "boom"),
      SessionOp.hookFire] (by decide)⟩

/-- Claim C7: calling `resume()` on a well-armed session that is already
running does not guard against double-arming: afterwards two timers are
armed, both at the configured interval, and an elapsing interval issues two
pushes instead of one. -/
theorem C7_resume_double_arms (c : MetricsClient) (rt : RTState)
    (hrun : MetricsClient.running c = true) (hgood : goodState c rt) :
    (MetricsClient.resume c rt).snd.armedTimers.length = 2 ∧
    (∀ t ∈ (MetricsClient.resume c rt).snd.armedTimers, t.snd = c._pushInterval) ∧
    MetricsClient.running (MetricsClient.resume c rt).fst = true ∧
    countPushAdds
        (elapse (MetricsClient.resume c rt).fst (MetricsClient.resume c rt).snd).trace =
      countPushAdds (MetricsClient.resume c rt).snd.trace + 2 := by
  simp only [MetricsClient.running, Option.isSome_iff_exists] at hrun
  obtain ⟨h0, hI⟩ := hrun
  simp only [goodState, clientTimers, hI] at hgood
  have harm : (MetricsClient.resume c rt).snd.armedTimers =
      [(h0, c._pushInterval), (rt.nextHandle, c._pushInterval)] := by
    simp [MetricsClient.resume, setInterval, hgood]
  refine ⟨by rw [harm]; rfl, ?_, rfl, ?_⟩
  · intro t ht
    rw [harm] at ht
    simp only [List.mem_cons, List.not_mem_nil, or_false] at ht
    rcases ht with rfl | rfl <;> rfl
  · rw [elapse_count, harm]
    rfl

/-- Witness for claim C7 at the concrete running session `sEx`. -/
theorem C7_resume_double_arms_witness :
    MetricsClient.running sEx.fst = true ∧ goodState sEx.fst sEx.snd ∧
    ((MetricsClient.resume sEx.fst sEx.snd).snd.armedTimers.length = 2 ∧
     (∀ t ∈ (MetricsClient.resume sEx.fst sEx.snd).snd.armedTimers,
        t.snd = sEx.fst._pushInterval) ∧
     MetricsClient.running (MetricsClient.resume sEx.fst sEx.snd).fst = true ∧
     countPushAdds
         (elapse (MetricsClient.resume sEx.fst sEx.snd).fst
           (MetricsClient.resume sEx.fst sEx.snd).snd).trace =
       countPushAdds (MetricsClient.resume sEx.fst sEx.snd).snd.trace + 2) :=
  ⟨rfl, rfl, C7_resume_double_arms sEx.fst sEx.snd rfl rfl⟩

/-- Claim C8: `start` builds the new session's identity from the default
identity — host machine name and invoking user name as the grouping
labels — together with the caller-supplied job name from the options
(`start` accepts no further caller-supplied grouping fields). -/
theorem C8_start_default_identity (options : MetricsOptions)
    (hostname username : String) (w : MetricsWorld) :
    ∃ cnew, (MetricsClient.start options hostname username w)._default = some cnew ∧
      cnew._params.jobName = options.metricsJobName ∧
      cnew._params.groupings = [("hostname", hostname), ("username", username)] := by
  cases hd : w._default with
  | none =>
    refine ⟨(MetricsClient.create options (getDefaultLabels hostname username) w.rt).fst,
      ?_, rfl, rfl⟩
    simp [MetricsClient.start, hd]
  | some c =>
    refine ⟨(MetricsClient.create options (getDefaultLabels hostname username)
        (MetricsClient.dispose c w.rt).snd).fst, ?_, rfl, rfl⟩
    simp [MetricsClient.start, hd]

/-- Claim C9: no session operation after construction changes anything in
the client but the timer handle — the endpoint URL, the push interval, the
identity, and the gateway client are unchanged by every sequence of
`pause` / `resume` / ticks / push completions / `dispose` / its completion /
the fatal hook. -/
theorem C9_frame_only_timer_handle (ops : List SessionOp) (c : MetricsClient)
    (rt : RTState) :
    (applyOps ops (c, rt)).fst._url = c._url ∧
    (applyOps ops (c, rt)).fst._pushInterval = c._pushInterval ∧
    (applyOps ops (c, rt)).fst._params = c._params ∧
    (applyOps ops (c, rt)).fst._pushgateway = c._pushgateway :=
  applyOps_frame ops (c, rt)

/-- Claim C10: repeated disposal is unguarded — a second `dispose()`, or the
fatal-error hook firing after an explicit `dispose()`, issues one more
delete request for the same identity, and each call's promise settles
independently (resolving on success, rejecting with the underlying transport
error). -/
theorem C10_dispose_unguarded (c : MetricsClient) (rt : RTState) :
    (applyOps [SessionOp.disposeOp, SessionOp.disposeOp] (c, rt)).snd.trace =
      rt.trace ++ [Effect.logInfo "Disposing Pushgateway stats" none,
                   Effect.delete c._params]
               ++ [Effect.logInfo "Disposing Pushgateway stats" none,
                   Effect.delete c._params] ∧
    countDeletes (applyOps [SessionOp.disposeOp, SessionOp.disposeOp] (c, rt)).snd.trace =
      countDeletes rt.trace + 2 ∧
    (applyOps [SessionOp.disposeOp, SessionOp.hookFire] (c, rt)).snd.trace =
      rt.trace ++ [Effect.logInfo "Disposing Pushgateway stats" none,
                   Effect.delete c._params]
               ++ [Effect.logInfo "Disposing Pushgateway stats" none,
                   Effect.delete c._params] ∧
    (∀ msg, (MetricsClient.disposeCallback c._params (some msg)).snd =
      Except.error msg) ∧
    (MetricsClient.disposeCallback c._params none).snd = Except.ok () := by
  have h1 : (applyOps [SessionOp.disposeOp, SessionOp.disposeOp] (c, rt)).snd.trace =
      rt.trace ++ [Effect.logInfo "Disposing Pushgateway stats" none,
                   Effect.delete c._params]
               ++ [Effect.logInfo "Disposing Pushgateway stats" none,
                   Effect.delete c._params] := by
    simp [applyOps, applyOp, MetricsClient.dispose, MetricsClient.pause,
      clearInterval, List.append_assoc]
  refine ⟨h1, ?_, ?_, fun msg => rfl, rfl⟩
  · rw [h1, countDeletes_append, countDeletes_append]
    simp [countDeletes, isDelete]
  · simp [applyOps, applyOp, MetricsClient.uncaughtHook, MetricsClient.dispose,
      MetricsClient.pause, clearInterval, List.append_assoc]
